import Mathlib

/-!
Verification development for the PDB registry/cache, lazy loader, query API
and type-display engine of `src/vmm/pdb.c`.

The C code is shallowly embedded: machine integers become `Nat` with explicit
reduction modulo `2 ^ 64` (QWORD) or `2 ^ 32` (DWORD) where overflow matters,
in-place mutation of the shared context and of shared `PDB_ENTRY` objects
becomes explicit state passing, and fallible calls return `Option`.  External
collaborators (the dbghelp Symbol Backend, PE introspection, memory access)
are abstracted as oracle records of functions, mirroring the capability
boundaries of the design.  Definitions keep the C names wherever possible.
-/

/-- Modelled from the spec: `Util_HashStringA` (defined in `util.c`, which is
not part of the sources) is the deterministic string fingerprint used by the
Hashing component; modelled as a 64-bit rotate-add fold over the characters of
the string. -/
def Util_HashStringA (s : String) : Nat :=
  s.data.foldl (fun h c => (h / 2 ^ 13 + h % 2 ^ 13 * 2 ^ 51 + c.toNat) % 2 ^ 64) 0

/-- Modelled from the spec: `Util_PathFileNameFix_Registry` (defined in
`util.c`, which is not part of the sources) normalizes a module name into a
character buffer before hashing; modelled as the character list of the name. -/
def Util_PathFileNameFix_Registry (s : String) : List Char := s.data

/-- Little-endian byte-list decoding: the C code reads GUID halves and memory
words with unaligned loads / `memcpy`; the first byte is least significant. -/
def leBytes (bs : List Nat) : Nat :=
  bs.foldr (fun b acc => acc * 256 + b % 256) 0

/-- `PDB_HashPdb` (pdb.c:92): fingerprint of (pdbName, 16-byte GUID, age).
Each step rotates the running QWORD hash right by 13 and adds the next
component, exactly as the C code's `(qwHash >> 13) | (qwHash << 51)`. -/
def PDB_HashPdb (szPdbName : String) (pbPdbGUID : List Nat) (dwPdbAge : Nat) : Nat :=
  let ror64 : Nat -> Nat := fun q => q / 2 ^ 13 + q % 2 ^ 13 * 2 ^ 51
  let q0 := Util_HashStringA szPdbName
  let q1 := (dwPdbAge + ror64 q0) % 2 ^ 64
  let q2 := (leBytes (pbPdbGUID.take 8) + ror64 q1) % 2 ^ 64
  (leBytes ((pbPdbGUID.drop 8).take 8) + ror64 q2) % 2 ^ 64

/-- `PDB_HashModuleName` (pdb.c:102): 32-bit rotate-add hash over the
normalized module name, `(dwHash >> 13) | (dwHash << 19)` plus each char. -/
def PDB_HashModuleName (szModuleName : String) : Nat :=
  (Util_PathFileNameFix_Registry szModuleName).foldl
    (fun h c => (h / 2 ^ 13 + h % 2 ^ 13 * 2 ^ 19 + c.toNat) % 2 ^ 32) 0

/-- `PDB_ENTRY` (pdb.c:24): one module's debug-database binding and lazy-load
state.  `szPath := none` models the NULL pointer before a successful path
resolution; `qwLoadAddress = 0` means not yet loaded. -/
structure PDB_ENTRY where
  qwHash : Nat
  vaModuleBase : Nat
  szModuleName : String
  szName : String
  pbGUID : List Nat
  dwAge : Nat
  cbModuleSize : Nat
  fLoadFailed : Bool
  szPath : Option String
  qwLoadAddress : Nat
deriving DecidableEq, Repr

/-- Modelled from the spec: the `ObMap` container (defined in `ob/ob_map.c`,
which is not part of the sources) is a hash index over shared entries kept in
insertion order.  `ObMap_ExistsKey` tests key membership. -/
def ObMap_ExistsKey {A : Type} (m : List (Nat × A)) (k : Nat) : Bool :=
  m.any (fun p => p.1 == k)

/-- Modelled from the spec: `ObMap_GetByKey` returns the (first) entry stored
under a key, or nothing. -/
def ObMap_GetByKey {A : Type} (m : List (Nat × A)) (k : Nat) : Option A :=
  Option.map Prod.snd (m.find? (fun p => p.1 == k))

/-- Modelled from the spec: `ObMap_Push` inserts a key/entry pair; a push with
an already-present key is dropped as a no-op ("later registrations under the
same name are dropped (no-op)"). -/
def ObMap_Push {A : Type} (m : List (Nat × A)) (k : Nat) (v : A) : List (Nat × A) :=
  if ObMap_ExistsKey m k then m else m ++ [(k, v)]

/-- Modelled from the spec: `ObMap_Size` is the number of stored entries. -/
def ObMap_Size {A : Type} (m : List (Nat × A)) : Nat := m.length

/-- Models in-place mutation of the shared `PDB_ENTRY` reached through
`ObMap_GetByKey`: the first pair with the given key is replaced by the
updated entry; all other pairs are untouched. -/
def ObMap_SetByKey {A : Type} (m : List (Nat × A)) (k : Nat) (v : A) : List (Nat × A) :=
  match m with
  | [] => []
  | p :: rest => if p.1 = k then (k, v) :: rest else p :: ObMap_SetByKey rest k v

/-- `VMMWIN_PDB_CONTEXT` (pdb.c:71), the registry state reachable from
`ctxVmm->pPdbContext`.  The by-module index shares its entries with the
by-fingerprint index in the C code (both hold references to the same
`PDB_ENTRY` objects); this sharing is modelled by the by-module index storing
the entry's fingerprint, dereferenced through the by-fingerprint index.  The
lock, dll handles and function table are concurrency/linking machinery with no
bearing on the state transitions and are not represented. -/
structure VMMWIN_PDB_CONTEXT where
  fDisabled : Bool
  pmPdbByHash : List (Nat × PDB_ENTRY)
  pmPdbByModule : List (Nat × Nat)
  qwLoadAddressNext : Nat
deriving DecidableEq, Repr

/-- `PDB_AddModuleEntry` (pdb.c:131): computes the fingerprint; if absent,
creates a zero-initialized entry, fills it, and pushes it into both indices;
returns the fingerprint in either case.  The embedding assumes the subsystem
context exists and allocation succeeds (the C function returns 0 in those
failure cases). -/
def PDB_AddModuleEntry (ctx : VMMWIN_PDB_CONTEXT) (vaModuleBase : Nat)
    (cbModuleSize : Nat) (szModuleName : String) (szPdbName : String)
    (pbPdbGUID : List Nat) (dwPdbAge : Nat) : Nat × VMMWIN_PDB_CONTEXT :=
  let qwPdbHash := PDB_HashPdb szPdbName pbPdbGUID dwPdbAge
  if ObMap_ExistsKey ctx.pmPdbByHash qwPdbHash then
    (qwPdbHash, ctx)
  else
    let pObPdbEntry : PDB_ENTRY :=
      { qwHash := qwPdbHash
        vaModuleBase := vaModuleBase
        szModuleName := szModuleName
        szName := szPdbName
        pbGUID := pbPdbGUID
        dwAge := dwPdbAge
        cbModuleSize := cbModuleSize
        fLoadFailed := false
        szPath := none
        qwLoadAddress := 0 }
    (qwPdbHash,
      { ctx with
        pmPdbByHash := ObMap_Push ctx.pmPdbByHash qwPdbHash pObPdbEntry
        pmPdbByModule :=
          ObMap_Push ctx.pmPdbByModule (PDB_HashModuleName szModuleName) qwPdbHash })

/-- Name canonicalization step of `PDB_GetHandleFromModuleName` (pdb.c:220):
a NULL module name or the synonym "nt" is replaced by "ntoskrnl". -/
def PDB_ModuleNameCanon (szModuleName : Option String) : String :=
  match szModuleName with
  | none => "ntoskrnl"
  | some s => if s = "nt" then "ntoskrnl" else s

/-- `PDB_GetHandleFromModuleName` (pdb.c:213): canonicalizes the name, looks
the entry up by module-name hash, and returns 0 if the subsystem is disabled,
the name is unknown, or the bound entry's load previously failed. -/
def PDB_GetHandleFromModuleName (ctx : VMMWIN_PDB_CONTEXT)
    (szModuleName : Option String) : Nat :=
  if ctx.fDisabled then 0
  else
    let dwHashModule := PDB_HashModuleName (PDB_ModuleNameCanon szModuleName)
    match ObMap_GetByKey ctx.pmPdbByModule dwHashModule with
    | none => 0
    | some qh =>
      match ObMap_GetByKey ctx.pmPdbByHash qh with
      | none => 0
      | some pObPdbEntry =>
        if pObPdbEntry.fLoadFailed then 0 else pObPdbEntry.qwHash

/-- Abstraction of the Symbol Backend capability used by the lazy loader:
`symFindFileInPath` locates a PDB by (name, GUID, age) and returns its local
path or fails; `symLoadModuleEx` loads it at a requested virtual slot and
returns the load address, 0 meaning failure.  `strDupA` models the
allocation behaviour of the external `Util_StrDupA` (util.c, not under
src/): it says whether duplicating the given string succeeds; on success
the duplicate has the same contents, on failure the C receives NULL. -/
structure PDB_SYM_BACKEND where
  symFindFileInPath : String -> List Nat -> Nat -> Option String
  symLoadModuleEx : String -> Nat -> Nat -> Nat
  strDupA : String -> Bool

/-- `VMMWIN_PDB_LOAD_ADDRESS_STEP` (pdb.c:19). -/
def VMMWIN_PDB_LOAD_ADDRESS_STEP : Nat := 0x10000000

/-- Result of one `PDB_LoadEnsureEx` invocation: the C return value, the
entry as mutated in place, the advanced load-slot counter, and the number of
Symbol Backend calls (SymFindFileInPath / SymLoadModuleEx) performed. -/
structure PDB_LOADENSURE_RESULT where
  ok : Bool
  entry : PDB_ENTRY
  qwLoadAddressNext : Nat
  backendCalls : Nat
deriving DecidableEq, Repr

/-- `PDB_LoadEnsureEx` (pdb.c:236): no-op failure on a previously failed
entry, no-op success on an already loaded entry; otherwise asks the backend
to find the PDB, duplicates the found path (`Util_StrDupA`, which yields
NULL on allocation failure), loads the database at the next slot (the slot
counter advances in either outcome of the load), and fails — marking the
entry permanently failed — when the duplicated path is NULL or the load
address is zero (pdb.c:247).  Note that on the NULL-path branch the load
address recorded by `SymLoadModuleEx` is kept as is. -/
def PDB_LoadEnsureEx (be : PDB_SYM_BACKEND) (qwLoadAddressNext : Nat)
    (pPdbEntry : PDB_ENTRY) : PDB_LOADENSURE_RESULT :=
  if pPdbEntry.fLoadFailed then
    { ok := false, entry := pPdbEntry, qwLoadAddressNext := qwLoadAddressNext
      backendCalls := 0 }
  else if pPdbEntry.qwLoadAddress ≠ 0 then
    { ok := true, entry := pPdbEntry, qwLoadAddressNext := qwLoadAddressNext
      backendCalls := 0 }
  else
    match be.symFindFileInPath pPdbEntry.szName pPdbEntry.pbGUID pPdbEntry.dwAge with
    | none =>
      { ok := false, entry := { pPdbEntry with fLoadFailed := true }
        qwLoadAddressNext := qwLoadAddressNext, backendCalls := 1 }
    | some szPdbPath =>
      let szPath := if be.strDupA szPdbPath then some szPdbPath else none
      let qwLoadAddress := be.symLoadModuleEx szPdbPath qwLoadAddressNext
        pPdbEntry.cbModuleSize
      let nextSlot := (qwLoadAddressNext + VMMWIN_PDB_LOAD_ADDRESS_STEP) % 2 ^ 64
      let e1 := { pPdbEntry with szPath := szPath
                                 qwLoadAddress := qwLoadAddress }
      if szPath = none ∨ qwLoadAddress = 0 then
        { ok := false, entry := { e1 with fLoadFailed := true }
          qwLoadAddressNext := nextSlot, backendCalls := 2 }
      else
        { ok := true, entry := e1, qwLoadAddressNext := nextSlot
          backendCalls := 2 }

/-- Modelled from the spec: `PDB_HANDLE_KERNEL` is declared in `pdb.h`, which
is not part of the sources; it is the reserved sentinel handle for the
critical (kernel) module, the all-ones QWORD. -/
def PDB_HANDLE_KERNEL : Nat := 2 ^ 64 - 1

/-- `PDB_LoadEnsure` (pdb.c:260): resolves the sentinel handle, fetches the
entry by fingerprint, runs `PDB_LoadEnsureEx` under the lock, and writes the
mutated shared entry back (in C the mutation happens through the shared
pointer; here via `ObMap_SetByKey`). -/
def PDB_LoadEnsure (be : PDB_SYM_BACKEND) (ctx : VMMWIN_PDB_CONTEXT)
    (hPDB : Nat) : Bool × VMMWIN_PDB_CONTEXT :=
  if ctx.fDisabled ∨ hPDB = 0 then (false, ctx)
  else
    let h := if hPDB = PDB_HANDLE_KERNEL then
      PDB_GetHandleFromModuleName ctx (some "ntoskrnl") else hPDB
    match ObMap_GetByKey ctx.pmPdbByHash h with
    | none => (false, ctx)
    | some pObPdbEntry =>
      let r := PDB_LoadEnsureEx be ctx.qwLoadAddressNext pObPdbEntry
      (r.ok,
        { ctx with
          pmPdbByHash := ObMap_SetByKey ctx.pmPdbByHash h r.entry
          qwLoadAddressNext := r.qwLoadAddressNext })

/-- `PE_CODEVIEW_INFO` payload as consumed by pdb.c: the embedded debug-info
reference of a mapped executable (PE Introspection capability). -/
structure PE_CODEVIEW_INFO where
  pdbFileName : String
  guid : List Nat
  age : Nat

/-- Abstraction of the PE Introspection capability: `peGetSize` returns the
reported image size (0 meaning failure), `peGetCodeViewInfo` the embedded
debug-info reference. -/
structure PDB_PE_BACKEND where
  peGetSize : Nat -> Nat
  peGetCodeViewInfo : Nat -> Option PE_CODEVIEW_INFO

/-- Module-name derivation in `PDB_GetHandleFromModuleAddress` (pdb.c:192):
the PDB file name truncated at the first occurrence of ".pdb". -/
def PDB_ModuleNameFromPdbFileName (s : String) : String :=
  (s.splitOn ".pdb").headD s

/-- `PDB_GetHandleFromModuleAddress` (pdb.c:169): linear scan (in insertion
order) for an entry already bound to the module base; on miss, refuses
modules whose reported size is zero or above 64 MiB, otherwise derives the
debug-info reference via PE introspection and registers the module. -/
def PDB_GetHandleFromModuleAddress (pe : PDB_PE_BACKEND)
    (ctx : VMMWIN_PDB_CONTEXT) (vaModuleBase : Nat) : Nat × VMMWIN_PDB_CONTEXT :=
  match ctx.pmPdbByHash.find? (fun p => p.2.vaModuleBase == vaModuleBase) with
  | some p => (p.2.qwHash, ctx)
  | none =>
    let cbModuleSize := pe.peGetSize vaModuleBase
    if cbModuleSize = 0 ∨ cbModuleSize > 0x04000000 then (0, ctx)
    else
      match pe.peGetCodeViewInfo vaModuleBase with
      | none => (0, ctx)
      | some cv =>
        PDB_AddModuleEntry ctx vaModuleBase cbModuleSize
          (PDB_ModuleNameFromPdbFileName cv.pdbFileName) cv.pdbFileName
          cv.guid cv.age

/-- QWORD subtraction with two's-complement wraparound, as performed by the C
code on `pSymInfo->Address - pSymInfo->ModBase`. -/
def sub64 (a b : Nat) : Nat := (a % 2 ^ 64 + 2 ^ 64 - b % 2 ^ 64) % 2 ^ 64

/-- The fields of dbghelp's `SYMBOL_INFO` that pdb.c consumes after a
successful `SymGetTypeFromName`. -/
structure SYMBOL_INFO_VIEW where
  size : Nat
  address : Nat
  modBase : Nat
deriving DecidableEq, Repr

/-- One symbol reported to the `SymEnumSymbols` callback. -/
structure SYM_ENUM_INFO where
  address : Nat
  modBase : Nat
deriving DecidableEq, Repr

/-- Abstraction of the Symbol Backend calls used by the query API, all keyed
by the entry's private load address.  `enumSymbols` returns the matching
symbols in enumeration order (or fails); `enumTypesFirst` models
`SymEnumTypesByName` driven by `PDB_GetTypeChildOffset_Callback`, which
records each reported type id and stops the enumeration after the first. -/
structure PDB_QUERY_BACKEND where
  sym : PDB_SYM_BACKEND
  getTypeFromName : Nat -> String -> Option SYMBOL_INFO_VIEW
  enumTypesFirst : Nat -> String -> Option Nat
  getChildrenCount : Nat -> Nat -> Option Nat
  findChildren : Nat -> Nat -> Nat -> Option (List Nat)
  getSymNameW : Nat -> Nat -> Option String
  getOffset : Nat -> Nat -> Option Nat
  enumSymbols : Nat -> String -> Option (List SYM_ENUM_INFO)

/-- Shared prologue of the handle-taking query entry points (pdb.c:320/449/
501 etc.): reject a disabled subsystem or zero handle, resolve the kernel
sentinel, fetch the entry, ensure it is loaded, and write the mutated entry
back.  Returns the loaded entry together with the updated context, or the
(possibly updated) context alone on failure. -/
def PDB_QueryPrologue (be : PDB_QUERY_BACKEND) (ctx : VMMWIN_PDB_CONTEXT)
    (hPDB : Nat) : Option PDB_ENTRY × VMMWIN_PDB_CONTEXT :=
  if ctx.fDisabled ∨ hPDB = 0 then (none, ctx)
  else
    let h := if hPDB = PDB_HANDLE_KERNEL then
      PDB_GetHandleFromModuleName ctx (some "ntoskrnl") else hPDB
    match ObMap_GetByKey ctx.pmPdbByHash h with
    | none => (none, ctx)
    | some pObPdbEntry =>
      let r := PDB_LoadEnsureEx be.sym ctx.qwLoadAddressNext pObPdbEntry
      let ctx1 :=
        { ctx with
          pmPdbByHash := ObMap_SetByKey ctx.pmPdbByHash h r.entry
          qwLoadAddressNext := r.qwLoadAddressNext }
      (if r.ok then some r.entry else none, ctx1)

/-- `PDB_GetTypeSize` (pdb.c:443): after the prologue, asks the backend for
the type; success requires both the backend call to succeed and the reported
size to be nonzero. -/
def PDB_GetTypeSize (be : PDB_QUERY_BACKEND) (ctx : VMMWIN_PDB_CONTEXT)
    (hPDB : Nat) (szTypeName : String) : Option Nat × VMMWIN_PDB_CONTEXT :=
  match PDB_QueryPrologue be ctx hPDB with
  | (none, ctx1) => (none, ctx1)
  | (some e, ctx1) =>
    match be.getTypeFromName e.qwLoadAddress szTypeName with
    | none => (none, ctx1)
    | some si => (if si.size = 0 then none else some si.size, ctx1)

/-- `PDB_GetTypeSizeShort` (pdb.c:463): delegates to `PDB_GetTypeSize` and
fails when the full-width result exceeds `0xffff`; otherwise stores the value
cast to a 16-bit WORD. -/
def PDB_GetTypeSizeShort (be : PDB_QUERY_BACKEND) (ctx : VMMWIN_PDB_CONTEXT)
    (hPDB : Nat) (szTypeName : String) : Option Nat × VMMWIN_PDB_CONTEXT :=
  match PDB_GetTypeSize be ctx hPDB szTypeName with
  | (none, ctx1) => (none, ctx1)
  | (some dwTypeSize, ctx1) =>
    if dwTypeSize > 0xffff then (none, ctx1)
    else (some (dwTypeSize % 2 ^ 16), ctx1)

/-- Child-scan loop of `PDB_GetTypeChildOffset` (pdb.c:511): for each child,
fetch its name (skipping the child when that fails), and on an exact name
match return its offset; a failing offset fetch falls through to the
remaining children. -/
def PDB_FindChildOffsetLoop (be : PDB_QUERY_BACKEND) (qwLoadAddress : Nat)
    (wszTypeChildName : String) : List Nat -> Option Nat
  | [] => none
  | childId :: rest =>
    match be.getSymNameW qwLoadAddress childId with
    | none => PDB_FindChildOffsetLoop be qwLoadAddress wszTypeChildName rest
    | some wszTypeChildSymName =>
      if wszTypeChildSymName = wszTypeChildName then
        match be.getOffset qwLoadAddress childId with
        | some dwTypeOffset => some dwTypeOffset
        | none => PDB_FindChildOffsetLoop be qwLoadAddress wszTypeChildName rest
      else PDB_FindChildOffsetLoop be qwLoadAddress wszTypeChildName rest

/-- `PDB_GetTypeChildOffset` (pdb.c:493): after the prologue, resolves the
first type matching the (wildcard) type name, requires a nonzero type id and
a nonzero child count, fetches the child id list, and scans it for an exact
child-name match. -/
def PDB_GetTypeChildOffset (be : PDB_QUERY_BACKEND) (ctx : VMMWIN_PDB_CONTEXT)
    (hPDB : Nat) (szTypeName : String) (wszTypeChildName : String) :
    Option Nat × VMMWIN_PDB_CONTEXT :=
  match PDB_QueryPrologue be ctx hPDB with
  | (none, ctx1) => (none, ctx1)
  | (some e, ctx1) =>
    match be.enumTypesFirst e.qwLoadAddress szTypeName with
    | none => (none, ctx1)
    | some dwTypeId =>
      if dwTypeId = 0 then (none, ctx1)
      else
        match be.getChildrenCount e.qwLoadAddress dwTypeId with
        | none => (none, ctx1)
        | some cTypeChildren =>
          if cTypeChildren = 0 then (none, ctx1)
          else
            match be.findChildren e.qwLoadAddress dwTypeId cTypeChildren with
            | none => (none, ctx1)
            | some childIds =>
              (PDB_FindChildOffsetLoop be e.qwLoadAddress wszTypeChildName childIds,
                ctx1)

/-- `PDB_GetTypeChildOffsetShort` (pdb.c:530): delegates to
`PDB_GetTypeChildOffset` and fails when the full-width result exceeds
`0xffff`; otherwise stores the value cast to a 16-bit WORD. -/
def PDB_GetTypeChildOffsetShort (be : PDB_QUERY_BACKEND)
    (ctx : VMMWIN_PDB_CONTEXT) (hPDB : Nat) (szTypeName : String)
    (wszTypeChildName : String) : Option Nat × VMMWIN_PDB_CONTEXT :=
  match PDB_GetTypeChildOffset be ctx hPDB szTypeName wszTypeChildName with
  | (none, ctx1) => (none, ctx1)
  | (some dwTypeOffset, ctx1) =>
    if dwTypeOffset > 0xffff then (none, ctx1)
    else (some (dwTypeOffset % 2 ^ 16), ctx1)

/-- `PDB_GetSymbolOffset_Callback` (pdb.c:297): records the symbol's offset
from the module base only when it is strictly below `0x10000000`, and always
returns FALSE, stopping the enumeration after the first symbol. -/
def PDB_GetSymbolOffset_Callback (pSymInfo : SYM_ENUM_INFO)
    (dwSymbolOffset : Nat) : Bool × Nat :=
  let d := sub64 pSymInfo.address pSymInfo.modBase
  (false, if d < 0x10000000 then d else dwSymbolOffset)

/-- Modelled from the spec: the Symbol Backend's symbol enumeration invokes
the callback once per matching symbol, in order, until the callback returns
false.  The accumulator is the DWORD the callback writes through. -/
def PDB_SymEnumDriver (syms : List SYM_ENUM_INFO) (acc : Nat) : Nat :=
  match syms with
  | [] => acc
  | s :: rest =>
    let r := PDB_GetSymbolOffset_Callback s acc
    if r.1 then PDB_SymEnumDriver rest r.2 else r.2

/-- `PDB_GetSymbolOffset` (pdb.c:313): after the prologue, the 32-bit target
path enumerates symbols through the recording callback starting from an
output initialized to 0 and fails if the recorded offset is still 0; the
64-bit path resolves the symbol directly and returns the DWORD-cast offset
with no zero check. -/
def PDB_GetSymbolOffset (be : PDB_QUERY_BACKEND) (f32 : Bool)
    (ctx : VMMWIN_PDB_CONTEXT) (hPDB : Nat) (szSymbolName : String) :
    Option Nat × VMMWIN_PDB_CONTEXT :=
  match PDB_QueryPrologue be ctx hPDB with
  | (none, ctx1) => (none, ctx1)
  | (some e, ctx1) =>
    if f32 then
      match be.enumSymbols e.qwLoadAddress szSymbolName with
      | none => (none, ctx1)
      | some syms =>
        let dwSymbolOffset := PDB_SymEnumDriver syms 0
        (if dwSymbolOffset = 0 then none else some dwSymbolOffset, ctx1)
    else
      match be.getTypeFromName e.qwLoadAddress szSymbolName with
      | none => (none, ctx1)
      | some si => (some (sub64 si.address si.modBase % 2 ^ 32), ctx1)

/-- dbghelp `SymTag` values consumed by the type-display engine. -/
def SymTagUDT : Nat := 11

/-- dbghelp tag for function types (pointee resolution). -/
def SymTagFunctionType : Nat := 13

/-- dbghelp tag for pointer types. -/
def SymTagPointerType : Nat := 14

/-- dbghelp tag for array types. -/
def SymTagArrayType : Nat := 15

/-- dbghelp tag for base (scalar) types. -/
def SymTagBaseType : Nat := 16

/-- `PDB_DT_INFO` (pdb.c:845): the per-child record filled by the two batch
`SymGetTypeInfoEx` fetches.  `dwBaseType` is an `Int` because the C code
stores the fake markers -1 ("function") and -2 ("pointer") into the DWORD. -/
structure PDB_DT_INFO where
  wszName : String
  wszTypeName : Option String
  qwBitFieldLength : Nat
  qwLength : Nat
  dwTag : Nat
  dwPtrTag : Nat
  dwOffset : Nat
  dwTypeIndex : Nat
  dwBaseType : Int
  dwArrayCount : Nat
  dwChildCount : Nat
  dwPtrTypeIndex : Nat
  dwArrayTypeIndex : Nat
deriving DecidableEq, Repr

/-- Abstraction of the backend calls the type-display engine makes:
`children t` is the combined result of the two batch `SymGetTypeInfoEx`
requests for the children of type `t` (`none` when either batch call fails);
`getSymName`, `getBaseType` and `getSymTag` are the individual
`SymGetTypeInfo` requests used to resolve pointee names and meta-kinds;
`kaddr` models the `VMM_KADDR` mapped-kernel-range check (vmm.h, not part of
the sources) and `vmmRead` the Memory Access capability read from the SYSTEM
process, both used only by the string-descriptor special case; `f32` is the
target pointer-width flag `ctxVmm->f32`. -/
structure PDB_DT_BACKEND where
  f32 : Bool
  children : Nat -> Option (List PDB_DT_INFO)
  getSymName : Nat -> Option String
  getBaseType : Nat -> Option Int
  getSymTag : Nat -> Option Nat
  kaddr : Nat -> Bool
  vmmRead : Nat -> Nat -> Option (List Nat)

/-- One rendered output line of the type-display engine, with the formatted
text abstracted into its semantic fields: indent level, hex field offset,
field name, optional `[count]` array prefix, optional `Ptr:` prefix, the
resolved type-name text, the optional `bit[lo:hi]` annotation, the optional
decoded value, and the optional inline string bytes appended by the
`_UNICODE_STRING` special case. -/
structure PDB_DT_LINE where
  iLevel : Nat
  dwOffset : Nat
  name : String
  arrayCount : Option Nat
  isPtr : Bool
  typeName : String
  bitAnnot : Option (Nat × Nat)
  value : Option Nat
  inlineStr : Option (List Nat)
deriving DecidableEq, Repr

/-- `PDB_DisplayTypeNt_GetTypeName` (pdb.c:864): scalar type-name lookup
table keyed by the base type and, for (u)ints, the byte size. -/
def PDB_DisplayTypeNt_GetTypeName (pDT : PDB_DT_INFO) (cbType : Nat) : String :=
  match pDT.wszTypeName with
  | some s => s
  | none =>
    if pDT.dwBaseType = 1 then "void"
    else if pDT.dwBaseType = 2 then "char"
    else if pDT.dwBaseType = 3 then "wchar"
    else if pDT.dwBaseType = 8 then "float"
    else if pDT.dwBaseType = 9 then "bcd"
    else if pDT.dwBaseType = 10 then "bool"
    else if pDT.dwBaseType = 25 then "currency"
    else if pDT.dwBaseType = 26 then "date"
    else if pDT.dwBaseType = 27 then "variant"
    else if pDT.dwBaseType = 28 then "complex"
    else if pDT.dwBaseType = 29 then "bit"
    else if pDT.dwBaseType = 30 then "BSTR"
    else if pDT.dwBaseType = 31 then "HRESULT"
    else if pDT.dwBaseType = 6 ∨ pDT.dwBaseType = 13 then
      if cbType = 1 then "int8" else if cbType = 2 then "int16"
      else if cbType = 4 then "int32" else if cbType = 8 then "int64"
      else "int??"
    else if pDT.dwBaseType = 7 ∨ pDT.dwBaseType = 14 then
      if cbType = 1 then "byte" else if cbType = 2 then "word"
      else if cbType = 4 then "dword" else if cbType = 8 then "uint64"
      else "uint??"
    else if pDT.dwBaseType = -1 then "function"
    else if pDT.dwBaseType = -2 then "pointer"
    else "???"

/-- The memory-bounds check guarding recursion into a nested aggregate
(pdb.c:1050): no memory buffer, or the field lies inside the buffer. -/
def PDB_DT_MemFits (pbMEM : Option (List Nat)) (dwOffset qwLength : Nat) : Bool :=
  match pbMEM with
  | none => true
  | some pb => decide (dwOffset + qwLength ≤ pb.length)

/-- Steps of one loop iteration that update the record and the sticky
cursor (pdb.c:1005-1044): compute the element storage size `cbType` (total
length divided by the array count for arrays), resolve a missing
array/pointer type name via `TI_GET_SYMNAME`, reset the running bitfield
cursor when it is nonzero and the storage size changed, is exhausted, or is
not a 1/2/4/8-byte scalar, resolve the pointee base type (faking "function"
and "pointer" markers from the pointee tag when the base type is absent),
and rewrite the well-known aggregate names `_LARGE_INTEGER`, `_EX_*` and
`_KEVENT` to scalars.  Returns the updated record, the storage size, and
the (possibly reset) cursor. -/
def PDB_DT_FieldPrep (db : PDB_DT_BACKEND) (pe0 : PDB_DT_INFO)
    (cbTypeLast qwBitBase : Nat) : PDB_DT_INFO × Nat × Nat :=
  let cbType := if pe0.dwArrayCount ≠ 0 then pe0.qwLength / pe0.dwArrayCount
    else pe0.qwLength
  let pe1 :=
    if pe0.wszTypeName = none ∧ pe0.dwPtrTypeIndex ≠ 0 ∧
        (pe0.dwTag = SymTagArrayType ∨ pe0.dwTag = SymTagPointerType) then
      { pe0 with wszTypeName := db.getSymName pe0.dwPtrTypeIndex }
    else pe0
  let qwBitBase1 :=
    if qwBitBase ≠ 0 ∧ (cbTypeLast ≠ cbType ∨ qwBitBase ≥ cbType * 8 ∨
        ¬(cbType = 1 ∨ cbType = 2 ∨ cbType = 4 ∨ cbType = 8)) then 0
    else qwBitBase
  let pe2 :=
    if pe1.dwPtrTypeIndex ≠ 0 ∧ pe1.wszTypeName = none then
      let bt := match db.getBaseType pe1.dwPtrTypeIndex with
        | some b => b
        | none => pe1.dwBaseType
      if bt = 0 then
        let ptag := match db.getSymTag pe1.dwPtrTypeIndex with
          | some t => t
          | none => pe1.dwPtrTag
        { pe1 with dwPtrTag := ptag
                   dwBaseType := if ptag = SymTagFunctionType then -1
                     else if ptag = SymTagPointerType then -2 else bt }
      else { pe1 with dwBaseType := bt }
    else pe1
  let specialScalar : Bool :=
    match pe2.wszTypeName with
    | none => false
    | some tn =>
      decide (tn = "_LARGE_INTEGER" ∨
        (tn.data.take 4).map Char.toUpper = "_EX_".data ∨ tn = "_KEVENT")
  let pe3 :=
    if pe2.dwTag = SymTagUDT ∧ specialScalar = true then
      { pe2 with dwTag := SymTagBaseType }
    else pe2
  (pe3, cbType, qwBitBase1)

/-- The output line of a nested-aggregate (UDT) field (pdb.c:1018-1048):
indent, offset, name, optional array/pointer prefixes and the aggregate
type name; no bit annotation, value or inline string. -/
def PDB_DT_UdtLine (iLevel : Nat) (pe3 : PDB_DT_INFO) : PDB_DT_LINE :=
  { iLevel := iLevel, dwOffset := pe3.dwOffset, name := pe3.wszName
    arrayCount := if pe3.dwArrayCount ≠ 0 then some pe3.dwArrayCount else none
    isPtr := pe3.dwPtrTypeIndex ≠ 0
    typeName := pe3.wszTypeName.getD "(null)"
    bitAnnot := none, value := none, inlineStr := none }

/-- The output line of a non-aggregate field (pdb.c:1018-1096): indent,
offset, name, optional array/pointer prefixes, the resolved scalar type
name, a `bit[lo:hi]` annotation spanning the bitfield width from the
current cursor, the value decoded little-endian from the memory buffer
(masked to the bitfield) for 1/2/4/8-byte base or pointer types, and, for
the third child of a 3-child `_UNICODE_STRING`, the referenced string bytes
read from the SYSTEM process when the pointer passes the kernel-address
check and the byte length is nonzero, even and below `2 * MAX_PATH`. -/
def PDB_DT_ScalarLine (db : PDB_DT_BACKEND) (iLevel : Nat)
    (wszTypeName : Option String) (pbMEM : Option (List Nat))
    (dwChildCount idx : Nat) (pe3 : PDB_DT_INFO) (cbType qwBitBase1 : Nat) :
    PDB_DT_LINE :=
  let bitAnnot :=
    if pe3.qwBitFieldLength ≠ 0 then
      some (qwBitBase1, qwBitBase1 + pe3.qwBitFieldLength - 1)
    else none
  let value :=
    match pbMEM with
    | none => none
    | some pb =>
      if (pe3.dwTag = SymTagBaseType ∨ pe3.dwTag = SymTagPointerType) ∧
          (cbType = 1 ∨ cbType = 2 ∨ cbType = 4 ∨ cbType = 8) then
        let v0 := leBytes ((pb.drop pe3.dwOffset).take cbType)
        some (if pe3.qwBitFieldLength ≠ 0 then
          v0 / 2 ^ qwBitBase1 % 2 ^ pe3.qwBitFieldLength else v0)
      else none
  let inlineStr :=
    match pbMEM with
    | none => none
    | some pb =>
      if dwChildCount = 3 ∧ idx = 2 ∧ wszTypeName = some "_UNICODE_STRING" then
        let cbData := leBytes (pb.take 2)
        let vaData := if db.f32 then leBytes ((pb.drop 4).take 4)
          else leBytes ((pb.drop 8).take 8)
        if db.kaddr vaData = true ∧ cbData ≠ 0 ∧ cbData % 2 = 0 ∧
            cbData < 520 then
          db.vmmRead vaData cbData
        else none
      else none
  { iLevel := iLevel, dwOffset := pe3.dwOffset, name := pe3.wszName
    arrayCount := if pe3.dwArrayCount ≠ 0 then some pe3.dwArrayCount else none
    isPtr := pe3.dwPtrTypeIndex ≠ 0
    typeName := PDB_DisplayTypeNt_GetTypeName pe3 cbType
    bitAnnot := bitAnnot, value := value, inlineStr := inlineStr }

/-- The per-child interpretation loop of `PDB_DisplayTypeNt_DoWork`
(pdb.c:1005-1099), embedded with the sticky cursor state passed explicitly:
`cbTypeLast`/`qwBitBase` are the running storage size and bitfield cursor,
`idx` the loop index `i`, `dwChildCount` the total child count of this level
and `wszTypeName` the enclosing type's name (both drive the
`_UNICODE_STRING` special case).  A nested aggregate renders its line and
then, when it has children, the level is below the limit, and the field lies
inside the memory buffer, recurses one level deeper; the C recursion calls
`PDB_DisplayTypeNt_DoWork` at `iLevel + 1`, whose child-fetch preamble
(pdb.c:970-1003) is inlined here: fetch the child records and render them
only when the fetch succeeds and fills exactly the expected child count.
The cursor advances by the field bit width after every field. -/
def PDB_DisplayTypeNt_DoWorkLoop (db : PDB_DT_BACKEND) (cLevelMax : Nat)
    (iLevel : Nat) (wszTypeName : Option String) (pbMEM : Option (List Nat))
    (dwChildCount idx : Nat) (rest : List PDB_DT_INFO)
    (cbTypeLast qwBitBase : Nat) : List PDB_DT_LINE :=
  match rest with
  | [] => []
  | pe0 :: rest1 =>
    let prep := PDB_DT_FieldPrep db pe0 cbTypeLast qwBitBase
    let pe3 := prep.1
    let cbType := prep.2.1
    let qwBitBase1 := prep.2.2
    if pe3.dwTag = SymTagUDT then
      let recLines :=
        if _h : pe3.dwChildCount ≠ 0 ∧ iLevel < cLevelMax ∧
            PDB_DT_MemFits pbMEM pe3.dwOffset pe3.qwLength = true then
          match db.children pe3.dwTypeIndex with
          | none => []
          | some infos2 =>
            if infos2.length = pe3.dwChildCount then
              PDB_DisplayTypeNt_DoWorkLoop db cLevelMax (iLevel + 1)
                pe3.wszTypeName (pbMEM.map (List.drop pe3.dwOffset))
                pe3.dwChildCount 0 infos2 0 0
            else []
        else []
      PDB_DT_UdtLine iLevel pe3 :: (recLines ++
        PDB_DisplayTypeNt_DoWorkLoop db cLevelMax iLevel wszTypeName pbMEM
          dwChildCount (idx + 1) rest1 cbType (qwBitBase1 + pe3.qwBitFieldLength))
    else
      PDB_DT_ScalarLine db iLevel wszTypeName pbMEM dwChildCount idx pe3 cbType
          qwBitBase1 ::
        PDB_DisplayTypeNt_DoWorkLoop db cLevelMax iLevel wszTypeName pbMEM
          dwChildCount (idx + 1) rest1 cbType (qwBitBase1 + pe3.qwBitFieldLength)
termination_by (cLevelMax - iLevel, rest.length)
decreasing_by
  all_goals simp_wf
  · exact Prod.Lex.left _ _ (by omega)
  · exact Prod.Lex.right _ (by omega)
  · exact Prod.Lex.right _ (by omega)

/-- `PDB_DisplayTypeNt_DoWork` (pdb.c:910): batch-fetch the child records of
`dwTypeIndex` (failing silently, with no output, when either batch call
fails or does not fill exactly `dwChildCount` records), then render each
child through the interpretation loop with a fresh cursor state.  The
recursion-depth limit `cLevelMax` is `ctxDT->iLevelMax`. -/
def PDB_DisplayTypeNt_DoWork (db : PDB_DT_BACKEND) (cLevelMax : Nat)
    (iLevel : Nat) (dwTypeIndex dwChildCount : Nat)
    (wszTypeName : Option String) (pbMEM : Option (List Nat)) :
    List PDB_DT_LINE :=
  match db.children dwTypeIndex with
  | none => []
  | some pInfo =>
    if pInfo.length = dwChildCount then
      PDB_DisplayTypeNt_DoWorkLoop db cLevelMax iLevel wszTypeName pbMEM
        dwChildCount 0 pInfo 0 0
    else []

/-- A concrete 16-byte GUID used by the concrete evaluation fixtures. -/
def guidA : List Nat :=
  [0x11, 0x22, 0x33, 0x44, 0x55, 0x66, 0x77, 0x88,
   0x99, 0xaa, 0xbb, 0xcc, 0xdd, 0xee, 0xff, 0x01]

/-- A second concrete 16-byte GUID, distinct from `guidA`. -/
def guidB : List Nat :=
  [0x01, 0x02, 0x03, 0x04, 0x05, 0x06, 0x07, 0x08,
   0x09, 0x0a, 0x0b, 0x0c, 0x0d, 0x0e, 0x0f, 0x10]

/-- Symbol Backend fixture in which the PDB file is never found. -/
def beFindFail : PDB_SYM_BACKEND :=
  { symFindFileInPath := fun _ _ _ => none
    symLoadModuleEx := fun _ _ _ => 0
    strDupA := fun _ => true }

/-- Symbol Backend fixture in which find, path duplication and load all
succeed. -/
def beLoadOk : PDB_SYM_BACKEND :=
  { symFindFileInPath := fun _ _ _ => some "symbols/ntkrnlmp.pdb"
    symLoadModuleEx := fun _ qwBaseOfDll _ => qwBaseOfDll
    strDupA := fun _ => true }

/-- Symbol Backend fixture in which the PDB file is found and loads at the
requested slot, but the path-string duplication (allocation) fails. -/
def beStrDupFail : PDB_SYM_BACKEND :=
  { symFindFileInPath := fun _ _ _ => some "symbols/ntkrnlmp.pdb"
    symLoadModuleEx := fun _ qwBaseOfDll _ => qwBaseOfDll
    strDupA := fun _ => false }

/-- An empty, enabled registry at the initial load-slot base address. -/
def ctxEmpty : VMMWIN_PDB_CONTEXT :=
  { fDisabled := false, pmPdbByHash := [], pmPdbByModule := []
    qwLoadAddressNext := 0x0000511f00000000 }

/-- An entry whose load has permanently failed. -/
def entryFailed : PDB_ENTRY :=
  { qwHash := 0xabc, vaModuleBase := 0x1000, szModuleName := "mymod"
    szName := "mymod.pdb", pbGUID := guidA, dwAge := 1, cbModuleSize := 0x2000
    fLoadFailed := true, szPath := none, qwLoadAddress := 0 }

/-- A freshly registered entry, not yet loaded and not failed. -/
def entryFresh : PDB_ENTRY :=
  { qwHash := 0xabc, vaModuleBase := 0x1000, szModuleName := "mymod"
    szName := "mymod.pdb", pbGUID := guidA, dwAge := 1, cbModuleSize := 0x2000
    fLoadFailed := false, szPath := none, qwLoadAddress := 0 }

/-- A registry holding `entryFailed` under both indices. -/
def ctxFailedMod : VMMWIN_PDB_CONTEXT :=
  { fDisabled := false
    pmPdbByHash := [(0xabc, entryFailed)]
    pmPdbByModule := [(PDB_HashModuleName "mymod", 0xabc)]
    qwLoadAddressNext := 0x0000511f00000000 }

/-- A registry holding the fresh entry `entryFresh` under both indices. -/
def ctxFreshMod : VMMWIN_PDB_CONTEXT :=
  { fDisabled := false
    pmPdbByHash := [(0xabc, entryFresh)]
    pmPdbByModule := [(PDB_HashModuleName "mymod", 0xabc)]
    qwLoadAddressNext := 0x0000511f00000000 }

/-- PE Introspection fixture reporting an implausibly large module. -/
def peSizeBig : PDB_PE_BACKEND :=
  { peGetSize := fun _ => 0x05000000
    peGetCodeViewInfo := fun _ => none }

/-- Query-backend fixture: every backend call succeeds with small concrete
results; the single enumerated symbol lies exactly `0x10000000` bytes past
its module base. -/
def beQuery : PDB_QUERY_BACKEND :=
  { sym := beLoadOk
    getTypeFromName := fun _ _ => some { size := 0x10, address := 0, modBase := 0 }
    enumTypesFirst := fun _ _ => some 7
    getChildrenCount := fun _ _ => some 1
    findChildren := fun _ _ _ => some [5]
    getSymNameW := fun _ _ => some "ChildField"
    getOffset := fun _ _ => some 8
    enumSymbols := fun _ _ => some [{ address := 0x90000000, modBase := 0x80000000 }] }

/-- A `PDB_DT_INFO` record for a nested aggregate (UDT) field with five
children of its own. -/
def dtInfoUdt : PDB_DT_INFO :=
  { wszName := "InnerField", wszTypeName := some "_INNER_STRUCT"
    qwBitFieldLength := 0, qwLength := 0x20, dwTag := SymTagUDT, dwPtrTag := 0
    dwOffset := 0, dwTypeIndex := 2, dwBaseType := 0, dwArrayCount := 0
    dwChildCount := 5, dwPtrTypeIndex := 0, dwArrayTypeIndex := 0 }

/-- A 1-byte bitfield `PDB_DT_INFO` record of the given name and width. -/
def dtInfoBitfield (name : String) (width : Nat) : PDB_DT_INFO :=
  { wszName := name, wszTypeName := none
    qwBitFieldLength := width, qwLength := 1, dwTag := SymTagBaseType
    dwPtrTag := 0, dwOffset := 0, dwTypeIndex := 3, dwBaseType := 14
    dwArrayCount := 0, dwChildCount := 0, dwPtrTypeIndex := 0
    dwArrayTypeIndex := 0 }

/-- A scalar leaf `PDB_DT_INFO` record. -/
def dtInfoLeaf : PDB_DT_INFO :=
  { wszName := "LeafField", wszTypeName := none
    qwBitFieldLength := 0, qwLength := 4, dwTag := SymTagBaseType
    dwPtrTag := 0, dwOffset := 4, dwTypeIndex := 3, dwBaseType := 14
    dwArrayCount := 0, dwChildCount := 0, dwPtrTypeIndex := 0
    dwArrayTypeIndex := 0 }

/-- Type-display backend fixture: type 1 has one nested-aggregate child that
itself (type 2) has five leaf children; type 0 has the three consecutive
1-byte bitfields of widths 3, 5 and 4. -/
def dtDb : PDB_DT_BACKEND :=
  { f32 := false
    children := fun t =>
      if t = 1 then some [dtInfoUdt]
      else if t = 2 then
        some [dtInfoLeaf, dtInfoLeaf, dtInfoLeaf, dtInfoLeaf, dtInfoLeaf]
      else if t = 0 then
        some [dtInfoBitfield "fieldA" 3, dtInfoBitfield "fieldB" 5,
          dtInfoBitfield "fieldC" 4]
      else none
    getSymName := fun _ => none
    getBaseType := fun _ => none
    getSymTag := fun _ => none
    kaddr := fun _ => false
    vmmRead := fun _ _ => none }

theorem ObMap_find_eq_none {A : Type} {m : List (Nat × A)} {k : Nat}
    (h : ObMap_ExistsKey m k = false) : m.find? (fun p => p.1 == k) = none := by
  rw [List.find?_eq_none]
  intro x hx hpx
  have hex : ObMap_ExistsKey m k = true := by
    unfold ObMap_ExistsKey
    exact List.any_eq_true.mpr ⟨x, hx, hpx⟩
  rw [h] at hex
  exact Bool.noConfusion hex

theorem ObMap_GetByKey_eq_none_of_not_exists {A : Type} {m : List (Nat × A)}
    {k : Nat} (h : ObMap_ExistsKey m k = false) : ObMap_GetByKey m k = none := by
  unfold ObMap_GetByKey
  rw [ObMap_find_eq_none h]
  rfl

theorem ObMap_ExistsKey_push_self {A : Type} (m : List (Nat × A)) (k : Nat)
    (v : A) : ObMap_ExistsKey (ObMap_Push m k v) k = true := by
  unfold ObMap_Push
  split
  · assumption
  · unfold ObMap_ExistsKey
    simp

theorem ObMap_GetByKey_push_new {A : Type} {m : List (Nat × A)} {k : Nat}
    (v : A) (h : ObMap_ExistsKey m k = false) :
    ObMap_GetByKey (ObMap_Push m k v) k = some v := by
  unfold ObMap_Push
  rw [h]
  simp only [Bool.false_eq_true, if_false]
  unfold ObMap_GetByKey
  rw [List.find?_append, ObMap_find_eq_none h]
  simp

theorem ObMap_SetByKey_self {A : Type} {m : List (Nat × A)} {k : Nat} {v : A}
    (h : ObMap_GetByKey m k = some v) : ObMap_SetByKey m k v = m := by
  induction m with
  | nil => simp [ObMap_GetByKey] at h
  | cons p rest ih =>
    by_cases hk : p.1 = k
    · have hp : p = (k, v) := by
        unfold ObMap_GetByKey at h
        rw [List.find?_cons_of_pos _ (by simp [hk])] at h
        simp at h
        cases p
        simp_all
      simp [ObMap_SetByKey, hk, hp]
    · unfold ObMap_GetByKey at h
      rw [List.find?_cons_of_neg _ (by simp [hk])] at h
      simp only [ObMap_SetByKey, if_neg hk]
      rw [ih h]

/-- C1 (amended): load-state fields of a registered entry are write-once and
final.  Once `fLoadFailed` is set or `qwLoadAddress` is nonzero,
`PDB_LoadEnsureEx` changes neither field; after a failure every later call
returns false with zero Symbol Backend invocations; provided the path-string
duplication (`Util_StrDupA`) succeeds, the mutual exclusion of `fLoadFailed`
and a nonzero `qwLoadAddress` is preserved by every call — when the
duplication fails while `SymLoadModuleEx` succeeds, the entry is instead
marked failed with its nonzero load address kept (pdb.c:244-250, refuting
unconditional exclusivity; see the counterexample) — exclusivity holds for
freshly registered entries; and `PDB_LoadEnsure` on a final entry leaves the
whole registry state unchanged. -/
theorem PDB_LoadEnsureEx_load_state_final (be : PDB_SYM_BACKEND) (q : Nat)
    (e : PDB_ENTRY) :
    (e.fLoadFailed = true →
      (PDB_LoadEnsureEx be q e).ok = false ∧
      (PDB_LoadEnsureEx be q e).entry = e ∧
      (PDB_LoadEnsureEx be q e).backendCalls = 0) ∧
    (e.fLoadFailed = true ∨ e.qwLoadAddress ≠ 0 →
      (PDB_LoadEnsureEx be q e).entry.fLoadFailed = e.fLoadFailed ∧
      (PDB_LoadEnsureEx be q e).entry.qwLoadAddress = e.qwLoadAddress) ∧
    ((∀ s, be.strDupA s = true) →
      ¬(e.fLoadFailed = true ∧ e.qwLoadAddress ≠ 0) →
      ¬((PDB_LoadEnsureEx be q e).entry.fLoadFailed = true ∧
        (PDB_LoadEnsureEx be q e).entry.qwLoadAddress ≠ 0)) ∧
    (∀ p, e.fLoadFailed = false → e.qwLoadAddress = 0 →
      be.symFindFileInPath e.szName e.pbGUID e.dwAge = some p →
      be.strDupA p = false →
      (PDB_LoadEnsureEx be q e).ok = false ∧
      (PDB_LoadEnsureEx be q e).entry.fLoadFailed = true ∧
      (PDB_LoadEnsureEx be q e).entry.qwLoadAddress
        = be.symLoadModuleEx p q e.cbModuleSize) ∧
    (∀ (ctx : VMMWIN_PDB_CONTEXT) (va cb age : Nat) (mn pn : String)
        (g : List Nat) (k : Nat) (e2 : PDB_ENTRY),
      ObMap_GetByKey (PDB_AddModuleEntry ctx va cb mn pn g age).2.pmPdbByHash k
        = some e2 →
      ObMap_GetByKey ctx.pmPdbByHash k = some e2 ∨
        (e2.fLoadFailed = false ∧ e2.qwLoadAddress = 0)) ∧
    (∀ (ctx : VMMWIN_PDB_CONTEXT) (hq : Nat) (e1 : PDB_ENTRY),
      ctx.fDisabled = false → hq ≠ 0 → hq ≠ PDB_HANDLE_KERNEL →
      ObMap_GetByKey ctx.pmPdbByHash hq = some e1 →
      e1.fLoadFailed = true ∨ e1.qwLoadAddress ≠ 0 →
      (PDB_LoadEnsure be ctx hq).2 = ctx ∧
        ((PDB_LoadEnsure be ctx hq).1 = true ↔ e1.fLoadFailed = false)) := by
  have hfix : e.fLoadFailed = true ∨ e.qwLoadAddress ≠ 0 →
      (PDB_LoadEnsureEx be q e).entry = e ∧
      ((PDB_LoadEnsureEx be q e).ok = true ↔ e.fLoadFailed = false) := by
    intro hor
    by_cases hf : e.fLoadFailed = true
    · simp [PDB_LoadEnsureEx, hf]
    · have hf' : e.fLoadFailed = false := by
        cases hb : e.fLoadFailed
        · rfl
        · exact absurd hb hf
      have ha : e.qwLoadAddress ≠ 0 := by
        rcases hor with hor | hor
        · exact absurd hor hf
        · exact hor
      simp [PDB_LoadEnsureEx, hf', ha]
  refine ⟨?_, ?_, ?_, ?_, ?_, ?_⟩
  · intro hf
    simp [PDB_LoadEnsureEx, hf]
  · intro hor
    rw [(hfix hor).1]
    exact ⟨rfl, rfl⟩
  · intro hdup hne
    by_cases hf : e.fLoadFailed = true
    · have ha : ¬e.qwLoadAddress ≠ 0 := fun ha => hne ⟨hf, ha⟩
      rw [(hfix (Or.inl hf)).1]
      exact hne
    · by_cases ha : e.qwLoadAddress ≠ 0
      · rw [(hfix (Or.inr ha)).1]
        exact hne
      · have hf' : e.fLoadFailed = false := by
          cases hb : e.fLoadFailed
          · rfl
          · exact absurd hb hf
        have ha' : e.qwLoadAddress = 0 := by omega
        simp only [PDB_LoadEnsureEx, hf', Bool.false_eq_true, if_false, ha',
          ne_eq, not_true_eq_false, if_true, not_false_eq_true, if_neg]
        cases hfind : be.symFindFileInPath e.szName e.pbGUID e.dwAge with
        | none => simp [ha']
        | some p =>
          by_cases hl : be.symLoadModuleEx p q e.cbModuleSize = 0 <;>
            simp [hl, ha', hdup p]
  · intro p hf' ha' hfind hdupf
    have hf : e.fLoadFailed = false := hf'
    simp [PDB_LoadEnsureEx, hf, ha', hfind, hdupf]
  · intro ctx va cb age mn pn g k e2 hget
    unfold PDB_AddModuleEntry at hget
    by_cases hex : ObMap_ExistsKey ctx.pmPdbByHash (PDB_HashPdb pn g age) = true
    · rw [if_pos hex] at hget
      exact Or.inl hget
    · have hex' : ObMap_ExistsKey ctx.pmPdbByHash (PDB_HashPdb pn g age) = false := by
        cases hb : ObMap_ExistsKey ctx.pmPdbByHash (PDB_HashPdb pn g age)
        · rfl
        · exact absurd hb hex
      rw [if_neg (by simp [hex'])] at hget
      simp only [ObMap_Push, hex', Bool.false_eq_true, if_false] at hget
      unfold ObMap_GetByKey at hget
      rw [List.find?_append] at hget
      cases hm : ctx.pmPdbByHash.find? (fun p => p.1 == k) with
      | some p0 =>
        rw [hm] at hget
        simp at hget
        left
        unfold ObMap_GetByKey
        rw [hm]
        simp [hget]
      | none =>
        rw [hm] at hget
        simp at hget
        right
        rcases hget with ⟨_, hget⟩
        rw [← hget]
        exact ⟨rfl, rfl⟩
  · intro ctx hq e1 hdis hz hk hget hor
    have hent : (PDB_LoadEnsureEx be ctx.qwLoadAddressNext e1).entry = e1 := by
      by_cases hf : e1.fLoadFailed = true
      · simp [PDB_LoadEnsureEx, hf]
      · have hf' : e1.fLoadFailed = false := by
          cases hb : e1.fLoadFailed
          · rfl
          · exact absurd hb hf
        have ha : e1.qwLoadAddress ≠ 0 := by
          rcases hor with hor | hor
          · exact absurd hor hf
          · exact hor
        simp [PDB_LoadEnsureEx, hf', ha]
    have hnext : (PDB_LoadEnsureEx be ctx.qwLoadAddressNext e1).qwLoadAddressNext
        = ctx.qwLoadAddressNext := by
      by_cases hf : e1.fLoadFailed = true
      · simp [PDB_LoadEnsureEx, hf]
      · have hf' : e1.fLoadFailed = false := by
          cases hb : e1.fLoadFailed
          · rfl
          · exact absurd hb hf
        have ha : e1.qwLoadAddress ≠ 0 := by
          rcases hor with hor | hor
          · exact absurd hor hf
          · exact hor
        simp [PDB_LoadEnsureEx, hf', ha]
    have hok : (PDB_LoadEnsureEx be ctx.qwLoadAddressNext e1).ok = true ↔
        e1.fLoadFailed = false := by
      by_cases hf : e1.fLoadFailed = true
      · simp [PDB_LoadEnsureEx, hf]
      · have hf' : e1.fLoadFailed = false := by
          cases hb : e1.fLoadFailed
          · rfl
          · exact absurd hb hf
        have ha : e1.qwLoadAddress ≠ 0 := by
          rcases hor with hor | hor
          · exact absurd hor hf
          · exact hor
        simp [PDB_LoadEnsureEx, hf', ha]
    have hun2 : (PDB_LoadEnsure be ctx hq).2 =
        { ctx with
          pmPdbByHash := ObMap_SetByKey ctx.pmPdbByHash hq
            (PDB_LoadEnsureEx be ctx.qwLoadAddressNext e1).entry
          qwLoadAddressNext :=
            (PDB_LoadEnsureEx be ctx.qwLoadAddressNext e1).qwLoadAddressNext } := by
      simp [PDB_LoadEnsure, hdis, hz, hk, hget]
    have hun1 : (PDB_LoadEnsure be ctx hq).1 =
        (PDB_LoadEnsureEx be ctx.qwLoadAddressNext e1).ok := by
      simp [PDB_LoadEnsure, hdis, hz, hk, hget]
    constructor
    · rw [hun2, hent, hnext, ObMap_SetByKey_self hget]
    · rw [hun1, hok]

/-- Concrete instantiation of the amended C1 theorem: on a failed entry the
loader returns false with no backend calls; with allocation succeeding the
exclusivity of `fLoadFailed` and a nonzero `qwLoadAddress` is preserved on
a fresh entry; with the path duplication failing the fresh entry ends up
permanently failed; and `PDB_LoadEnsure` on a failed entry leaves the
registry unchanged. -/
theorem PDB_LoadEnsureEx_load_state_final_witness :
    (PDB_LoadEnsureEx beFindFail 0 entryFailed).ok = false ∧
    (PDB_LoadEnsureEx beFindFail 0 entryFailed).entry = entryFailed ∧
    (PDB_LoadEnsureEx beFindFail 0 entryFailed).backendCalls = 0 ∧
    ¬((PDB_LoadEnsureEx beFindFail 0 entryFresh).entry.fLoadFailed = true ∧
      (PDB_LoadEnsureEx beFindFail 0 entryFresh).entry.qwLoadAddress ≠ 0) ∧
    (PDB_LoadEnsureEx beStrDupFail 0x1000 entryFresh).ok = false ∧
    (PDB_LoadEnsureEx beStrDupFail 0x1000 entryFresh).entry.fLoadFailed = true ∧
    (PDB_LoadEnsure beFindFail ctxFailedMod 0xabc).2 = ctxFailedMod := by
  obtain ⟨h1, h2, h3, h4, h5, h6⟩ :=
    PDB_LoadEnsureEx_load_state_final beFindFail 0 entryFailed
  obtain ⟨-, -, g3, -, -, -⟩ :=
    PDB_LoadEnsureEx_load_state_final beFindFail 0 entryFresh
  obtain ⟨-, -, -, g4, -, -⟩ :=
    PDB_LoadEnsureEx_load_state_final beStrDupFail 0x1000 entryFresh
  have ha := h1 rfl
  have hb := h6 ctxFailedMod 0xabc entryFailed rfl (by decide) (by decide) rfl
    (Or.inl rfl)
  have hc := g3 (fun _ => rfl) (by decide)
  have hd := g4 "symbols/ntkrnlmp.pdb" rfl rfl rfl rfl
  exact ⟨ha.1, ha.2.1, ha.2.2, hc, hd.1, hd.2.1, hb.1⟩

/-- Counterexample to C1 as originally stated: when the backend finds and
loads the PDB but the path-string duplication fails (pdb.c:244/247), the
entry — registered fresh, with `fLoadFailed` false and `qwLoadAddress`
zero — ends the call with `fLoadFailed` true while `qwLoadAddress` holds
the nonzero address returned by `SymLoadModuleEx`, so `fLoadFailed` and a
nonzero `qwLoadAddress` are not unconditionally mutually exclusive. -/
theorem PDB_LoadEnsureEx_exclusivity_counterexample :
    entryFresh.fLoadFailed = false ∧ entryFresh.qwLoadAddress = 0 ∧
    (PDB_LoadEnsureEx beStrDupFail 0x1000 entryFresh).entry.fLoadFailed
      = true ∧
    (PDB_LoadEnsureEx beStrDupFail 0x1000 entryFresh).entry.qwLoadAddress
      = 0x1000 ∧
    (PDB_LoadEnsureEx beStrDupFail 0x1000 entryFresh).entry.qwLoadAddress
      ≠ 0 := by
  decide

/-- C2: `PDB_AddModuleEntry` is idempotent.  A second registration of the
same (pdbName, GUID, age) triple returns the same handle (the fingerprint),
leaves the registry state entirely unchanged, and in particular leaves the
size of the by-fingerprint index unchanged; the returned handle is nonzero
whenever the fingerprint is. -/
theorem PDB_AddModuleEntry_idempotent (ctx : VMMWIN_PDB_CONTEXT)
    (va cb age : Nat) (mn pn : String) (g : List Nat) :
    (PDB_AddModuleEntry (PDB_AddModuleEntry ctx va cb mn pn g age).2
        va cb mn pn g age).1
      = (PDB_AddModuleEntry ctx va cb mn pn g age).1 ∧
    (PDB_AddModuleEntry ctx va cb mn pn g age).1 = PDB_HashPdb pn g age ∧
    (PDB_AddModuleEntry (PDB_AddModuleEntry ctx va cb mn pn g age).2
        va cb mn pn g age).2
      = (PDB_AddModuleEntry ctx va cb mn pn g age).2 ∧
    ObMap_Size
        (PDB_AddModuleEntry (PDB_AddModuleEntry ctx va cb mn pn g age).2
          va cb mn pn g age).2.pmPdbByHash
      = ObMap_Size (PDB_AddModuleEntry ctx va cb mn pn g age).2.pmPdbByHash ∧
    (PDB_HashPdb pn g age ≠ 0 →
      (PDB_AddModuleEntry ctx va cb mn pn g age).1 ≠ 0) := by
  have hex2 : ObMap_ExistsKey
      (PDB_AddModuleEntry ctx va cb mn pn g age).2.pmPdbByHash
      (PDB_HashPdb pn g age) = true := by
    simp only [PDB_AddModuleEntry]
    split
    · next hex => simpa using hex
    · simpa using ObMap_ExistsKey_push_self ctx.pmPdbByHash (PDB_HashPdb pn g age) _
  have h1 : (PDB_AddModuleEntry ctx va cb mn pn g age).1 = PDB_HashPdb pn g age := by
    simp only [PDB_AddModuleEntry]
    split <;> rfl
  have h2 : PDB_AddModuleEntry (PDB_AddModuleEntry ctx va cb mn pn g age).2
      va cb mn pn g age
      = (PDB_HashPdb pn g age, (PDB_AddModuleEntry ctx va cb mn pn g age).2) := by
    conv_lhs => rw [PDB_AddModuleEntry]
    rw [if_pos hex2]
  refine ⟨?_, h1, ?_, ?_, ?_⟩
  · rw [h2, h1]
  · rw [h2]
  · rw [h2]
  · intro hnz
    rw [h1]
    exact hnz

/-- Concrete instantiation of the C2 theorem: registering the same module
twice in an empty registry returns the same nonzero handle both times and
leaves the index size unchanged by the repeat. -/
theorem PDB_AddModuleEntry_idempotent_witness :
    (PDB_AddModuleEntry
        (PDB_AddModuleEntry ctxEmpty 0x1000 0x2000 "mymod" "mymod.pdb" guidA 1).2
        0x1000 0x2000 "mymod" "mymod.pdb" guidA 1).1
      = (PDB_AddModuleEntry ctxEmpty 0x1000 0x2000 "mymod" "mymod.pdb" guidA 1).1 ∧
    ObMap_Size
        (PDB_AddModuleEntry
          (PDB_AddModuleEntry ctxEmpty 0x1000 0x2000 "mymod" "mymod.pdb" guidA 1).2
          0x1000 0x2000 "mymod" "mymod.pdb" guidA 1).2.pmPdbByHash
      = ObMap_Size
          (PDB_AddModuleEntry ctxEmpty 0x1000 0x2000 "mymod" "mymod.pdb"
            guidA 1).2.pmPdbByHash ∧
    (PDB_AddModuleEntry ctxEmpty 0x1000 0x2000 "mymod" "mymod.pdb" guidA 1).1 ≠ 0 := by
  obtain ⟨h1, h2, h3, h4, h5⟩ :=
    PDB_AddModuleEntry_idempotent ctxEmpty 0x1000 0x2000 1 "mymod" "mymod.pdb" guidA
  exact ⟨h1, h4, h5 (by decide)⟩

/-- C8: a NULL module-name pointer does not fail the lookup; it is
canonicalized to "ntoskrnl" and `PDB_GetHandleFromModuleName` behaves
exactly as if "ntoskrnl" had been passed. -/
theorem PDB_GetHandleFromModuleName_null_canon (ctx : VMMWIN_PDB_CONTEXT) :
    PDB_GetHandleFromModuleName ctx none =
      PDB_GetHandleFromModuleName ctx (some "ntoskrnl") := rfl

/-- C3: "nt" is a synonym of "ntoskrnl" for `PDB_GetHandleFromModuleName`,
and a module name whose indexed entry has `fLoadFailed` set resolves to the
zero handle (failed loads are reported as absent). -/
theorem PDB_GetHandleFromModuleName_synonym_and_failed :
    (∀ ctx : VMMWIN_PDB_CONTEXT,
      PDB_GetHandleFromModuleName ctx (some "nt") =
        PDB_GetHandleFromModuleName ctx (some "ntoskrnl")) ∧
    (∀ (ctx : VMMWIN_PDB_CONTEXT) (name : Option String) (qh : Nat)
        (e : PDB_ENTRY),
      ObMap_GetByKey ctx.pmPdbByModule
          (PDB_HashModuleName (PDB_ModuleNameCanon name)) = some qh →
      ObMap_GetByKey ctx.pmPdbByHash qh = some e →
      e.fLoadFailed = true →
      PDB_GetHandleFromModuleName ctx name = 0) := by
  constructor
  · intro ctx
    rfl
  · intro ctx name qh e hm hh hf
    unfold PDB_GetHandleFromModuleName
    simp [hm, hh, hf]

/-- Concrete instantiation of the C3 theorem: in a registry whose only entry
failed to load, the module name resolves to the zero handle, and the "nt"
synonym agrees with "ntoskrnl". -/
theorem PDB_GetHandleFromModuleName_synonym_and_failed_witness :
    PDB_GetHandleFromModuleName ctxFailedMod (some "mymod") = 0 ∧
    PDB_GetHandleFromModuleName ctxFreshMod (some "nt") =
      PDB_GetHandleFromModuleName ctxFreshMod (some "ntoskrnl") := by
  obtain ⟨ha, hb⟩ := PDB_GetHandleFromModuleName_synonym_and_failed
  exact ⟨hb ctxFailedMod (some "mymod") 0xabc entryFailed (by decide) (by decide)
    (by decide), ha ctxFreshMod⟩

theorem ObMap_Push_of_exists {A : Type} {m : List (Nat × A)} {k : Nat} (v : A)
    (h : ObMap_ExistsKey m k = true) : ObMap_Push m k v = m := by
  unfold ObMap_Push
  rw [h]
  rfl

theorem ObMap_GetByKey_append {A : Type} (m1 m2 : List (Nat × A)) (k : Nat) :
    ObMap_GetByKey (m1 ++ m2) k
      = (ObMap_GetByKey m1 k).or (ObMap_GetByKey m2 k) := by
  unfold ObMap_GetByKey
  rw [List.find?_append]
  cases m1.find? (fun p => p.1 == k) <;> simp

theorem PDB_AddModuleEntry_new_eq (ctx : VMMWIN_PDB_CONTEXT) (va cb age : Nat)
    (mn pn : String) (g : List Nat)
    (hex : ObMap_ExistsKey ctx.pmPdbByHash (PDB_HashPdb pn g age) = false) :
    PDB_AddModuleEntry ctx va cb mn pn g age
      = (PDB_HashPdb pn g age,
        { ctx with
          pmPdbByHash := ctx.pmPdbByHash ++ [(PDB_HashPdb pn g age,
            { qwHash := PDB_HashPdb pn g age, vaModuleBase := va,
              szModuleName := mn, szName := pn, pbGUID := g, dwAge := age,
              cbModuleSize := cb, fLoadFailed := false, szPath := none,
              qwLoadAddress := 0 })]
          pmPdbByModule := ObMap_Push ctx.pmPdbByModule (PDB_HashModuleName mn)
            (PDB_HashPdb pn g age) }) := by
  simp only [PDB_AddModuleEntry]
  rw [if_neg (by simp [hex])]
  simp only [ObMap_Push, hex, Bool.false_eq_true, if_false]

/-- C4: registering two entries with distinct fingerprints under the same
module name keeps the first entry as the name-indexed result — the
module-name lookup resolves to the first fingerprint — while the second
entry remains reachable through the by-fingerprint index under its own
fingerprint.  (Preconditions: the subsystem is enabled, neither fingerprint
nor the module name is already registered, and the name is an actual module
name rather than the lookup-time synonym "nt".) -/
theorem PDB_AddModuleEntry_name_collision_first_wins
    (ctx : VMMWIN_PDB_CONTEXT) (va1 cb1 age1 va2 cb2 age2 : Nat)
    (mn pn1 pn2 : String) (g1 g2 : List Nat)
    (hdis : ctx.fDisabled = false) (hnt : mn ≠ "nt")
    (hne : PDB_HashPdb pn1 g1 age1 ≠ PDB_HashPdb pn2 g2 age2)
    (h1a : ObMap_ExistsKey ctx.pmPdbByHash (PDB_HashPdb pn1 g1 age1) = false)
    (h2a : ObMap_ExistsKey ctx.pmPdbByHash (PDB_HashPdb pn2 g2 age2) = false)
    (hma : ObMap_ExistsKey ctx.pmPdbByModule (PDB_HashModuleName mn) = false) :
    PDB_GetHandleFromModuleName
        (PDB_AddModuleEntry (PDB_AddModuleEntry ctx va1 cb1 mn pn1 g1 age1).2
          va2 cb2 mn pn2 g2 age2).2 (some mn)
      = PDB_HashPdb pn1 g1 age1 ∧
    ObMap_GetByKey
        (PDB_AddModuleEntry (PDB_AddModuleEntry ctx va1 cb1 mn pn1 g1 age1).2
          va2 cb2 mn pn2 g2 age2).2.pmPdbByModule (PDB_HashModuleName mn)
      = some (PDB_HashPdb pn1 g1 age1) ∧
    (∃ e2 : PDB_ENTRY,
      ObMap_GetByKey
          (PDB_AddModuleEntry (PDB_AddModuleEntry ctx va1 cb1 mn pn1 g1 age1).2
            va2 cb2 mn pn2 g2 age2).2.pmPdbByHash (PDB_HashPdb pn2 g2 age2)
        = some e2 ∧
      e2.qwHash = PDB_HashPdb pn2 g2 age2 ∧ e2.szName = pn2 ∧
      e2.szModuleName = mn) := by
  have hex2A : ObMap_ExistsKey (ctx.pmPdbByHash ++ [(PDB_HashPdb pn1 g1 age1, { qwHash := PDB_HashPdb pn1 g1 age1, vaModuleBase := va1, szModuleName := mn, szName := pn1, pbGUID := g1, dwAge := age1, cbModuleSize := cb1, fLoadFailed := false, szPath := none, qwLoadAddress := 0 })]) (PDB_HashPdb pn2 g2 age2) = false := by
    unfold ObMap_ExistsKey at h2a ⊢
    simp only [List.any_append, h2a, Bool.false_or, List.any_cons, List.any_nil, Bool.or_false]
    simpa using fun hcontra => hne hcontra
  have hctx1 : (PDB_AddModuleEntry ctx va1 cb1 mn pn1 g1 age1).2 = { ctx with pmPdbByHash := ctx.pmPdbByHash ++ [(PDB_HashPdb pn1 g1 age1, { qwHash := PDB_HashPdb pn1 g1 age1, vaModuleBase := va1, szModuleName := mn, szName := pn1, pbGUID := g1, dwAge := age1, cbModuleSize := cb1, fLoadFailed := false, szPath := none, qwLoadAddress := 0 })], pmPdbByModule := ObMap_Push ctx.pmPdbByModule (PDB_HashModuleName mn) (PDB_HashPdb pn1 g1 age1) } := by
    rw [PDB_AddModuleEntry_new_eq ctx va1 cb1 age1 mn pn1 g1 h1a]
  have hctx2 : (PDB_AddModuleEntry (PDB_AddModuleEntry ctx va1 cb1 mn pn1 g1 age1).2 va2 cb2 mn pn2 g2 age2).2 = { ctx with pmPdbByHash := (ctx.pmPdbByHash ++ [(PDB_HashPdb pn1 g1 age1, { qwHash := PDB_HashPdb pn1 g1 age1, vaModuleBase := va1, szModuleName := mn, szName := pn1, pbGUID := g1, dwAge := age1, cbModuleSize := cb1, fLoadFailed := false, szPath := none, qwLoadAddress := 0 })]) ++ [(PDB_HashPdb pn2 g2 age2, { qwHash := PDB_HashPdb pn2 g2 age2, vaModuleBase := va2, szModuleName := mn, szName := pn2, pbGUID := g2, dwAge := age2, cbModuleSize := cb2, fLoadFailed := false, szPath := none, qwLoadAddress := 0 })], pmPdbByModule := ObMap_Push (ObMap_Push ctx.pmPdbByModule (PDB_HashModuleName mn) (PDB_HashPdb pn1 g1 age1)) (PDB_HashModuleName mn) (PDB_HashPdb pn2 g2 age2) } := by
    rw [hctx1, PDB_AddModuleEntry_new_eq _ va2 cb2 age2 mn pn2 g2 hex2A]
  have hmod2 : ObMap_Push (ObMap_Push ctx.pmPdbByModule (PDB_HashModuleName mn) (PDB_HashPdb pn1 g1 age1)) (PDB_HashModuleName mn) (PDB_HashPdb pn2 g2 age2) = ObMap_Push ctx.pmPdbByModule (PDB_HashModuleName mn) (PDB_HashPdb pn1 g1 age1) :=
    ObMap_Push_of_exists _ (ObMap_ExistsKey_push_self ctx.pmPdbByModule (PDB_HashModuleName mn) _)
  have hmodget : ObMap_GetByKey (ObMap_Push ctx.pmPdbByModule (PDB_HashModuleName mn) (PDB_HashPdb pn1 g1 age1)) (PDB_HashModuleName mn) = some (PDB_HashPdb pn1 g1 age1) :=
    ObMap_GetByKey_push_new _ hma
  have hhget1 : ObMap_GetByKey ((ctx.pmPdbByHash ++ [(PDB_HashPdb pn1 g1 age1, { qwHash := PDB_HashPdb pn1 g1 age1, vaModuleBase := va1, szModuleName := mn, szName := pn1, pbGUID := g1, dwAge := age1, cbModuleSize := cb1, fLoadFailed := false, szPath := none, qwLoadAddress := 0 })]) ++ [(PDB_HashPdb pn2 g2 age2, { qwHash := PDB_HashPdb pn2 g2 age2, vaModuleBase := va2, szModuleName := mn, szName := pn2, pbGUID := g2, dwAge := age2, cbModuleSize := cb2, fLoadFailed := false, szPath := none, qwLoadAddress := 0 })]) (PDB_HashPdb pn1 g1 age1) = some ({ qwHash := PDB_HashPdb pn1 g1 age1, vaModuleBase := va1, szModuleName := mn, szName := pn1, pbGUID := g1, dwAge := age1, cbModuleSize := cb1, fLoadFailed := false, szPath := none, qwLoadAddress := 0 } : PDB_ENTRY) := by
    rw [ObMap_GetByKey_append, ObMap_GetByKey_append, ObMap_GetByKey_eq_none_of_not_exists h1a]
    simp [ObMap_GetByKey]
  have hhget2 : ObMap_GetByKey ((ctx.pmPdbByHash ++ [(PDB_HashPdb pn1 g1 age1, { qwHash := PDB_HashPdb pn1 g1 age1, vaModuleBase := va1, szModuleName := mn, szName := pn1, pbGUID := g1, dwAge := age1, cbModuleSize := cb1, fLoadFailed := false, szPath := none, qwLoadAddress := 0 })]) ++ [(PDB_HashPdb pn2 g2 age2, { qwHash := PDB_HashPdb pn2 g2 age2, vaModuleBase := va2, szModuleName := mn, szName := pn2, pbGUID := g2, dwAge := age2, cbModuleSize := cb2, fLoadFailed := false, szPath := none, qwLoadAddress := 0 })]) (PDB_HashPdb pn2 g2 age2) = some ({ qwHash := PDB_HashPdb pn2 g2 age2, vaModuleBase := va2, szModuleName := mn, szName := pn2, pbGUID := g2, dwAge := age2, cbModuleSize := cb2, fLoadFailed := false, szPath := none, qwLoadAddress := 0 } : PDB_ENTRY) := by
    rw [ObMap_GetByKey_append, ObMap_GetByKey_eq_none_of_not_exists hex2A]
    simp [ObMap_GetByKey]
  rw [hctx2]
  refine ⟨?_, ?_, ?_⟩
  · simp only [PDB_GetHandleFromModuleName, PDB_ModuleNameCanon, hdis,
      Bool.false_eq_true, if_false, hnt, hmod2, hmodget, hhget1]
  · simpa only [hmod2] using hmodget
  · exact ⟨_, hhget2, rfl, rfl, rfl⟩

/-- Concrete instantiation of the C4 theorem: two distinct PDBs registered
under module name "mymod" in an empty registry; the name resolves to the
first fingerprint and the second stays reachable by its own fingerprint. -/
theorem PDB_AddModuleEntry_name_collision_first_wins_witness :
    PDB_GetHandleFromModuleName
        (PDB_AddModuleEntry
          (PDB_AddModuleEntry ctxEmpty 0x1000 0x2000 "mymod" "aaa.pdb" guidA 1).2
          0x7000 0x3000 "mymod" "bbb.pdb" guidB 2).2 (some "mymod")
      = PDB_HashPdb "aaa.pdb" guidA 1 ∧
    (∃ e2 : PDB_ENTRY,
      ObMap_GetByKey
          (PDB_AddModuleEntry
            (PDB_AddModuleEntry ctxEmpty 0x1000 0x2000 "mymod" "aaa.pdb" guidA 1).2
            0x7000 0x3000 "mymod" "bbb.pdb" guidB 2).2.pmPdbByHash
          (PDB_HashPdb "bbb.pdb" guidB 2)
        = some e2 ∧
      e2.qwHash = PDB_HashPdb "bbb.pdb" guidB 2 ∧ e2.szName = "bbb.pdb" ∧
      e2.szModuleName = "mymod") := by
  obtain ⟨ha, hb, hc⟩ := PDB_AddModuleEntry_name_collision_first_wins
    ctxEmpty 0x1000 0x2000 1 0x7000 0x3000 2 "mymod" "aaa.pdb" "bbb.pdb"
    guidA guidB rfl (by decide) (by decide) rfl rfl rfl
  exact ⟨ha, hc⟩

/-- C7: for a module base that is not yet registered,
`PDB_GetHandleFromModuleAddress` returns zero and registers nothing whenever
the reported image size is zero or greater than 64 MiB; neither the PE
debug-info lookup nor registration happens in that case. -/
theorem PDB_GetHandleFromModuleAddress_size_bound (pe : PDB_PE_BACKEND)
    (ctx : VMMWIN_PDB_CONTEXT) (va : Nat)
    (habs : ∀ p ∈ ctx.pmPdbByHash, p.2.vaModuleBase ≠ va)
    (hsz : pe.peGetSize va = 0 ∨ pe.peGetSize va > 0x04000000) :
    PDB_GetHandleFromModuleAddress pe ctx va = (0, ctx) := by
  unfold PDB_GetHandleFromModuleAddress
  have hfind : ctx.pmPdbByHash.find? (fun p => p.2.vaModuleBase == va) = none := by
    rw [List.find?_eq_none]
    intro x hx hpx
    exact habs x hx (by simpa using hpx)
  simp only [hfind]
  rw [if_pos hsz]

/-- Concrete instantiation of the C7 theorem: an unregistered module whose
reported size is 80 MiB is refused without touching the registry. -/
theorem PDB_GetHandleFromModuleAddress_size_bound_witness :
    PDB_GetHandleFromModuleAddress peSizeBig ctxEmpty 0x1000 = (0, ctxEmpty) :=
  PDB_GetHandleFromModuleAddress_size_bound peSizeBig ctxEmpty 0x1000
    (by simp [ctxEmpty]) (Or.inr (by decide))

/-- C9: the 16-bit query variants succeed exactly when the full-width query
succeeds with a result of at most `0xffff`, and on success they return the
full-width value unchanged — a larger value yields failure, never a
truncated 16-bit result. -/
theorem PDB_GetType_short_iff (be : PDB_QUERY_BACKEND)
    (ctx : VMMWIN_PDB_CONTEXT) (hPDB : Nat) (tn cn : String) (w : Nat) :
    ((PDB_GetTypeSizeShort be ctx hPDB tn).1 = some w ↔
      (PDB_GetTypeSize be ctx hPDB tn).1 = some w ∧ w ≤ 0xffff) ∧
    ((PDB_GetTypeChildOffsetShort be ctx hPDB tn cn).1 = some w ↔
      (PDB_GetTypeChildOffset be ctx hPDB tn cn).1 = some w ∧ w ≤ 0xffff) := by
  constructor
  · unfold PDB_GetTypeSizeShort
    rcases hq : PDB_GetTypeSize be ctx hPDB tn with ⟨_ | dw, c⟩
    · simp [hq]
    · simp only [hq]
      by_cases hb : dw > 0xffff
      · simp only [if_pos hb]
        simp
        omega
      · simp only [if_neg hb]
        simp
        omega
  · unfold PDB_GetTypeChildOffsetShort
    rcases hq : PDB_GetTypeChildOffset be ctx hPDB tn cn with ⟨_ | dw, c⟩
    · simp [hq]
    · simp only [hq]
      by_cases hb : dw > 0xffff
      · simp only [if_pos hb]
        simp
        omega
      · simp only [if_neg hb]
        simp
        omega

/-- Concrete instantiation of the C9 theorem: with every backend call
succeeding, the short type-size query returns the full 16-byte size and the
short child-offset query returns the full offset 8. -/
theorem PDB_GetType_short_iff_witness :
    (PDB_GetTypeSizeShort beQuery ctxFreshMod 0xabc "_MYTYPE").1 = some 0x10 ∧
    (PDB_GetTypeChildOffsetShort beQuery ctxFreshMod 0xabc "_MYTYPE"
      "ChildField").1 = some 8 := by
  constructor
  · exact (PDB_GetType_short_iff beQuery ctxFreshMod 0xabc "_MYTYPE"
      "ChildField" 0x10).1.mpr ⟨by decide, by decide⟩
  · exact (PDB_GetType_short_iff beQuery ctxFreshMod 0xabc "_MYTYPE"
      "ChildField" 8).2.mpr ⟨by decide, by decide⟩

/-- C10: on the 32-bit enumeration path, `PDB_GetSymbolOffset` fails for a
symbol whose offset from the module base is zero or at least `0x10000000`,
even when the backend enumeration succeeds; the enumeration callback only
ever records offsets strictly below `0x10000000`. -/
theorem PDB_GetSymbolOffset_f32_bound (be : PDB_QUERY_BACKEND)
    (ctx : VMMWIN_PDB_CONTEXT) (hPDB : Nat) (nm : String)
    (hsym : ∀ (la : Nat) (s : SYM_ENUM_INFO) (rest : List SYM_ENUM_INFO),
      be.enumSymbols la nm = some (s :: rest) →
      sub64 s.address s.modBase = 0 ∨ 0x10000000 ≤ sub64 s.address s.modBase) :
    (PDB_GetSymbolOffset be true ctx hPDB nm).1 = none ∧
    (∀ (si : SYM_ENUM_INFO) (acc : Nat),
      (PDB_GetSymbolOffset_Callback si acc).2 = acc ∨
      (PDB_GetSymbolOffset_Callback si acc).2 < 0x10000000) := by
  constructor
  · unfold PDB_GetSymbolOffset
    rcases hp : PDB_QueryPrologue be ctx hPDB with ⟨_ | e, c⟩
    · simp [hp]
    · simp only [hp]
      rcases hs : be.enumSymbols e.qwLoadAddress nm with _ | ⟨_ | ⟨s, rest⟩⟩
      · simp [hs]
      · simp [hs, PDB_SymEnumDriver]
      · have hv : PDB_SymEnumDriver (s :: rest) 0 = 0 := by
          rcases hsym e.qwLoadAddress s rest hs with h0 | hge
          · simp [PDB_SymEnumDriver, PDB_GetSymbolOffset_Callback, h0]
          · have hnlt : ¬sub64 s.address s.modBase < 0x10000000 := by omega
            simp [PDB_SymEnumDriver, PDB_GetSymbolOffset_Callback, hnlt]
        simp [hs, hv]
  · intro si acc
    by_cases hd : sub64 si.address si.modBase < 0x10000000
    · right
      simp [PDB_GetSymbolOffset_Callback, hd]
    · left
      simp [PDB_GetSymbolOffset_Callback, hd]

/-- Concrete instantiation of the C10 theorem: the only enumerated symbol
lies exactly `0x10000000` past its module base, the enumeration succeeds,
and the query still fails. -/
theorem PDB_GetSymbolOffset_f32_bound_witness :
    (PDB_GetSymbolOffset beQuery true ctxFreshMod 0xabc "PsActive").1 = none := by
  apply (PDB_GetSymbolOffset_f32_bound beQuery ctxFreshMod 0xabc "PsActive" ?_).1
  intro la s rest h
  simp only [beQuery] at h
  rw [Option.some_inj] at h
  have hs : s = { address := 0x90000000, modBase := 0x80000000 } :=
    (List.cons.injEq _ _ _ _ ▸ h : _ ∧ _).1.symm
  right
  rw [hs]
  decide


theorem PDB_DisplayTypeNt_DoWorkLoop_len0 (db : PDB_DT_BACKEND)
    (tn : Option String) (mem : Option (List Nat)) (cTot : Nat) :
    ∀ (rest : List PDB_DT_INFO) (idx cbl qbb : Nat),
      (PDB_DisplayTypeNt_DoWorkLoop db 0 0 tn mem cTot idx rest cbl qbb).length
        = rest.length := by
  intro rest
  induction rest with
  | nil =>
    intro idx cbl qbb
    unfold PDB_DisplayTypeNt_DoWorkLoop
    rfl
  | cons pe rest1 ih =>
    intro idx cbl qbb
    unfold PDB_DisplayTypeNt_DoWorkLoop
    simp only [lt_self_iff_false, false_and, and_false, dite_false]
    split
    · simp [ih]
    · simp [ih]

theorem PDB_DisplayTypeNt_DoWorkLoop_level_le (db : PDB_DT_BACKEND)
    (cMax : Nat) :
    ∀ (iLevel : Nat) (tn : Option String) (mem : Option (List Nat))
      (cTot idx : Nat) (rest : List PDB_DT_INFO) (cbl qbb : Nat),
      iLevel ≤ cMax →
      ∀ l ∈ PDB_DisplayTypeNt_DoWorkLoop db cMax iLevel tn mem cTot idx rest
          cbl qbb,
        l.iLevel ≤ cMax := by
  intro iLevel tn mem cTot idx rest cbl qbb
  induction iLevel, tn, mem, cTot, idx, rest, cbl, qbb
    using PDB_DisplayTypeNt_DoWorkLoop.induct db cMax with
  | case1 iLevel tn mem cTot idx cbl qbb =>
    intro hle l hl
    unfold PDB_DisplayTypeNt_DoWorkLoop at hl
    exact absurd hl (List.not_mem_nil l)
  | case2 iLevel tn mem cTot idx cbl qbb pe0 rest1 prep pe3 cbType qwBitBase1
      htag ihc iht =>
    intro hle l hl
    have htag' : ((PDB_DT_FieldPrep db pe0 cbl qbb).1).dwTag = SymTagUDT := htag
    unfold PDB_DisplayTypeNt_DoWorkLoop at hl
    simp only [htag', List.mem_cons, List.mem_append, eq_self_iff_true,
      if_true] at hl
    rcases hl with rfl | hl | hl
    · simpa [PDB_DT_UdtLine] using hle
    · by_cases hcond : ((PDB_DT_FieldPrep db pe0 cbl qbb).1).dwChildCount ≠ 0 ∧
          iLevel < cMax ∧
          PDB_DT_MemFits mem ((PDB_DT_FieldPrep db pe0 cbl qbb).1).dwOffset
            ((PDB_DT_FieldPrep db pe0 cbl qbb).1).qwLength = true
      · rw [dif_pos hcond] at hl
        cases hch : db.children ((PDB_DT_FieldPrep db pe0 cbl qbb).1).dwTypeIndex with
        | none =>
          rw [hch] at hl
          exact absurd hl (List.not_mem_nil l)
        | some infos2 =>
          simp only [hch] at hl
          by_cases hlen : infos2.length =
              ((PDB_DT_FieldPrep db pe0 cbl qbb).1).dwChildCount
          · rw [if_pos hlen] at hl
            exact ihc hcond infos2 (by omega) l hl
          · rw [if_neg hlen] at hl
            exact absurd hl (List.not_mem_nil l)
      · rw [dif_neg hcond] at hl
        exact absurd hl (List.not_mem_nil l)
    · exact iht hle l hl
  | case3 iLevel tn mem cTot idx cbl qbb pe0 rest1 prep pe3 cbType qwBitBase1
      htag iht =>
    intro hle l hl
    have htag' : ¬((PDB_DT_FieldPrep db pe0 cbl qbb).1).dwTag = SymTagUDT := htag
    unfold PDB_DisplayTypeNt_DoWorkLoop at hl
    simp only [htag', List.mem_cons, if_false, ite_false] at hl
    rcases hl with rfl | hl
    · simpa [PDB_DT_ScalarLine] using hle
    · exact iht hle l hl

/-- C5: the type-display recursion is depth-bounded.  With recursion limit
`cLevelMax = 0`, a call renders exactly one line per child — nested
aggregate fields render their own line but are never recursed into,
regardless of their child count — and, in general, every line rendered from
a level at most `cLevelMax` carries a level at most `cLevelMax`: the
recursion level passed to `PDB_DisplayTypeNt_DoWork` never exceeds the
limit. -/
theorem PDB_DisplayTypeNt_DoWork_depth_bounded :
    (∀ (db : PDB_DT_BACKEND) (tn : Option String) (mem : Option (List Nat))
        (t : Nat) (pInfo : List PDB_DT_INFO),
      db.children t = some pInfo →
      (PDB_DisplayTypeNt_DoWork db 0 0 t pInfo.length tn mem).length
        = pInfo.length) ∧
    (∀ (db : PDB_DT_BACKEND) (cMax iLevel t n : Nat) (tn : Option String)
        (mem : Option (List Nat)),
      iLevel ≤ cMax →
      ∀ l ∈ PDB_DisplayTypeNt_DoWork db cMax iLevel t n tn mem,
        l.iLevel ≤ cMax) := by
  constructor
  · intro db tn mem t pInfo hch
    unfold PDB_DisplayTypeNt_DoWork
    simp only [hch, if_true]
    exact PDB_DisplayTypeNt_DoWorkLoop_len0 db tn mem pInfo.length pInfo 0 0 0
  · intro db cMax iLevel t n tn mem hle l hl
    unfold PDB_DisplayTypeNt_DoWork at hl
    cases hch : db.children t with
    | none =>
      rw [hch] at hl
      exact absurd hl (List.not_mem_nil l)
    | some pInfo =>
      simp only [hch] at hl
      by_cases hlen : pInfo.length = n
      · rw [if_pos hlen] at hl
        exact PDB_DisplayTypeNt_DoWorkLoop_level_le db cMax iLevel tn mem n 0
          pInfo 0 0 hle l hl
      · rw [if_neg hlen] at hl
        exact absurd hl (List.not_mem_nil l)

/-- Concrete instantiation of the C5 theorem: with limit 0, a type whose
only child is an aggregate with five children of its own renders exactly
one line, and that line's level respects the limit. -/
theorem PDB_DisplayTypeNt_DoWork_depth_bounded_witness :
    (PDB_DisplayTypeNt_DoWork dtDb 0 0 1 1 none none).length = 1 ∧
    (PDB_DT_UdtLine 0 dtInfoUdt).iLevel ≤ 0 := by
  obtain ⟨ha, hb⟩ := PDB_DisplayTypeNt_DoWork_depth_bounded
  have hss : ("_INNER_STRUCT".data.take 4).map Char.toUpper ≠ "_EX_".data := by
    decide
  have hout : PDB_DisplayTypeNt_DoWork dtDb 0 0 1 1 none none
      = [PDB_DT_UdtLine 0 dtInfoUdt] := by
    simp +decide [PDB_DisplayTypeNt_DoWork, PDB_DisplayTypeNt_DoWorkLoop,
      PDB_DT_FieldPrep, dtDb, dtInfoUdt, SymTagUDT, SymTagArrayType,
      SymTagPointerType, hss]
  constructor
  · exact ha dtDb none none 1 [dtInfoUdt] rfl
  · exact hb dtDb 0 0 1 1 none none (Nat.le_refl 0) _
      (hout ▸ List.mem_singleton_self _)

/-- C6: three consecutive 1-byte bitfield children of widths 3, 5 and 4
render the bit annotations `bit[0:2]`, `bit[3:7]` and `bit[0:3]`: the
cursor accumulates across fields of the same storage size and resets to
zero when it would reach or exceed the storage width. -/
theorem PDB_DisplayTypeNt_DoWork_bitfield_cursor (db : PDB_DT_BACKEND)
    (L t : Nat) (na nb nc : String)
    (hch : db.children t
      = some [dtInfoBitfield na 3, dtInfoBitfield nb 5, dtInfoBitfield nc 4]) :
    (PDB_DisplayTypeNt_DoWork db L 0 t 3 none none).map (fun l => l.bitAnnot)
      = [some (0, 2), some (3, 7), some (0, 3)] := by
  unfold PDB_DisplayTypeNt_DoWork
  simp only [hch]
  simp [PDB_DisplayTypeNt_DoWorkLoop, PDB_DT_FieldPrep, PDB_DT_ScalarLine,
    dtInfoBitfield, SymTagUDT, SymTagBaseType, SymTagArrayType,
    SymTagPointerType]

/-- Concrete instantiation of the C6 theorem on the fixture backend. -/
theorem PDB_DisplayTypeNt_DoWork_bitfield_cursor_witness :
    (PDB_DisplayTypeNt_DoWork dtDb 0 0 0 3 none none).map (fun l => l.bitAnnot)
      = [some (0, 2), some (3, 7), some (0, 3)] :=
  PDB_DisplayTypeNt_DoWork_bitfield_cursor dtDb 0 0 "fieldA" "fieldB" "fieldC"
    (by decide)
